import Mathlib

/-!
Verification of `gprofiler/gprofiler_types.py`: the stack-sample data model,
the profiling-error-stack builder and annotator, and the configuration-value
validators.

Python strings are embedded as `List Char`; `collections.Counter` (a dict
from stack keys to sample counts, insertion-ordered, unique keys) is embedded
as an insertion-ordered association list.  `re.match` is embedded as an
anchored prefix matcher over a small regex AST via Brzozowski derivatives
(`.` matches any character except newline, as in Python without DOTALL).
Fallible Python code (assert failures, ValueError from unpacking or `int()`,
ArgumentTypeError) is embedded with `Option` / `Except`.
-/

namespace GProfiler

/-- Python strings, embedded as lists of characters. -/
abbrev Str := List Char

/-- `StackToSampleCount = Counter`: a dict from stack key to sample count,
insertion-ordered with unique keys, embedded as an association list. -/
abbrev StackToSampleCount := List (Str × Nat)

/-- Python dict item assignment `d[k] = v`: replaces the count of an existing
key in place (keeping its position), otherwise appends the new entry. -/
def counterSet : StackToSampleCount → Str → Nat → StackToSampleCount
  | [], k, v => [(k, v)]
  | (k₂, v₂) :: rest, k, v =>
    if k₂ = k then (k, v) :: rest else (k₂, v₂) :: counterSet rest k v

/-- Python `s.split(";", maxsplit=1)` unpacked into exactly two variables:
splits at the first `;`, returning `none` (ValueError) when `s` has no `;`. -/
def splitFirstSemi : Str → Option (Str × Str)
  | [] => none
  | c :: cs =>
    if c = ';' then some ([], cs)
    else (splitFirstSemi cs).map fun p => (c :: p.1, p.2)

/-- Regex AST covering the constructs of `.*;\[Profiling .+: .+\]`. -/
inductive Regex where
  | fail : Regex
  | eps : Regex
  | lit : Char → Regex
  | dot : Regex
  | alt : Regex → Regex → Regex
  | seq : Regex → Regex → Regex
  | star : Regex → Regex
deriving DecidableEq

/-- Whether a regex accepts the empty string. -/
def Regex.nullable : Regex → Bool
  | .fail => false
  | .eps => true
  | .lit _ => false
  | .dot => false
  | .alt r s => r.nullable || s.nullable
  | .seq r s => r.nullable && s.nullable
  | .star _ => true

/-- Brzozowski derivative of a regex by one character.  `dot` matches any
character except `'\n'`, as Python `.` does without `re.DOTALL`. -/
def Regex.deriv : Regex → Char → Regex
  | .fail, _ => .fail
  | .eps, _ => .fail
  | .lit c, a => if a = c then .eps else .fail
  | .dot, a => if a = '\n' then .fail else .eps
  | .alt r s, a => .alt (r.deriv a) (s.deriv a)
  | .seq r s, a =>
    if r.nullable then .alt (.seq (r.deriv a) s) (s.deriv a)
    else .seq (r.deriv a) s
  | .star r, a => .seq (r.deriv a) (.star r)

/-- The language of a regex, as an inductive membership predicate. -/
inductive Regex.Matches : Regex → List Char → Prop where
  | eps : Regex.Matches .eps []
  | lit (c : Char) : Regex.Matches (.lit c) [c]
  | dot (c : Char) : c ≠ '\n' → Regex.Matches .dot [c]
  | altL {r s xs} : Regex.Matches r xs → Regex.Matches (.alt r s) xs
  | altR {r s xs} : Regex.Matches s xs → Regex.Matches (.alt r s) xs
  | seq {r s xs ys} : Regex.Matches r xs → Regex.Matches s ys →
      Regex.Matches (.seq r s) (xs ++ ys)
  | starNil {r} : Regex.Matches (.star r) []
  | starCons {r xs ys} : Regex.Matches r xs → Regex.Matches (.star r) ys →
      Regex.Matches (.star r) (xs ++ ys)

/-- Python `pattern.match(s) is not None`: some prefix of `s` (anchored at the
start) belongs to the pattern's language. -/
def Regex.hasPrefixMatch (r : Regex) : List Char → Bool
  | [] => r.nullable
  | c :: cs => r.nullable || (r.deriv c).hasPrefixMatch cs

/-- A regex matching exactly the given literal character sequence. -/
def Regex.lits : List Char → Regex
  | [] => .eps
  | c :: cs => .seq (.lit c) (Regex.lits cs)

/-- `r+`, expressed as `r · r*`. -/
def Regex.plus (r : Regex) : Regex := .seq r (.star r)

namespace ProfilingErrorStack

/-- `PROFILING_ERROR_STACK_PATTERN = re.compile(r".*;\[Profiling .+: .+\]")`. -/
def PROFILING_ERROR_STACK_PATTERN : Regex :=
  .seq (.star .dot) <| .seq (Regex.lits (";[Profiling ").data) <|
    .seq (Regex.plus .dot) <| .seq (Regex.lits (": ").data) <|
      .seq (Regex.plus .dot) (.lit ']')

/-- The key built by `__init__`: `f"{comm};[Profiling {what}: {reason}]"`. -/
def errorKey (what reason comm : Str) : Str :=
  comm ++ (";[Profiling ").data ++ what ++ (": ").data ++ reason ++ [']']

/-- `ProfilingErrorStack.is_error_stack`: the container has exactly one entry
and its key matches `PROFILING_ERROR_STACK_PATTERN` anchored at the start. -/
def is_error_stack (stack : StackToSampleCount) : Bool :=
  match stack with
  | [(k, _)] => PROFILING_ERROR_STACK_PATTERN.hasPrefixMatch k
  | _ => false

/-- `ProfilingErrorStack.__init__(what, reason, comm)`: starts from an empty
counter, inserts `f"{comm};[Profiling {what}: {reason}]"` with count 1, then
asserts `is_error_stack`; an assert failure is embedded as `none`. -/
def construct (what reason comm : Str) : Option StackToSampleCount :=
  let stack : StackToSampleCount := [(errorKey what reason comm, 1)]
  if is_error_stack stack then some stack else none

/-- One iteration of the `for frame, count in source_stacks.items()` loop body:
`comm, stack = frame.split(";", maxsplit=1)` (ValueError embedded as `none`),
then `dest_stacks[f"{comm};{error_frame};{stack}"] = count`. -/
def attachStep (error_frame : Str) (dest : StackToSampleCount) (p : Str × Nat) :
    Option StackToSampleCount := do
  let (comm, stack) ← splitFirstSemi p.1
  let annotated := comm ++ [';'] ++ error_frame ++ [';'] ++ stack
  pure (counterSet dest annotated p.2)

/-- `ProfilingErrorStack.attach_error_to_stacks(source_stacks, error_stack)`.
`next(iter(error_stack))` on an empty counter and two-variable unpacking of a
split without `;` both raise, embedded as `none`. -/
def attach_error_to_stacks (source_stacks error_stack : StackToSampleCount) :
    Option StackToSampleCount := do
  let firstKey ← match error_stack with
    | [] => none
    | (k, _) :: _ => some k
  let (_, error_frame) ← splitFirstSemi firstKey
  source_stacks.foldlM (attachStep error_frame) ([] : StackToSampleCount)

end ProfilingErrorStack

/-! ### Derivative metatheory: `hasPrefixMatch` agrees with `Matches` -/

theorem Regex.nullable_of_matches_nil {r : Regex} {s : List Char}
    (h : r.Matches s) (hs : s = []) : r.nullable = true := by
  induction h with
  | eps => rfl
  | lit c => simp at hs
  | dot c hc => simp at hs
  | altL h ih => simp [Regex.nullable, ih hs]
  | altR h ih => simp [Regex.nullable, ih hs]
  | seq h₁ h₂ ih₁ ih₂ =>
    rcases List.append_eq_nil.mp hs with ⟨h₁', h₂'⟩
    simp [Regex.nullable, ih₁ h₁', ih₂ h₂']
  | starNil => rfl
  | starCons h₁ h₂ ih₁ ih₂ => rfl

theorem Regex.matches_nil_of_nullable {r : Regex}
    (h : r.nullable = true) : r.Matches [] := by
  induction r with
  | fail => simp [Regex.nullable] at h
  | eps => exact .eps
  | lit c => simp [Regex.nullable] at h
  | dot => simp [Regex.nullable] at h
  | alt r s ihr ihs =>
    simp only [Regex.nullable, Bool.or_eq_true] at h
    rcases h with h | h
    · exact .altL (ihr h)
    · exact .altR (ihs h)
  | seq r s ihr ihs =>
    simp only [Regex.nullable, Bool.and_eq_true] at h
    exact .seq (ihr h.1) (ihs h.2)
  | star r ih => exact .starNil

theorem Regex.deriv_sound {r : Regex} {c : Char} {xs : List Char}
    (h : (r.deriv c).Matches xs) : r.Matches (c :: xs) := by
  induction r generalizing xs with
  | fail => exact absurd h (by intro h; cases h)
  | eps => exact absurd h (by intro h; cases h)
  | lit a =>
    simp only [Regex.deriv] at h
    split at h
    · rename_i hc
      cases h
      rw [hc]
      exact .lit _
    · cases h
  | dot =>
    simp only [Regex.deriv] at h
    split at h
    · cases h
    · cases h
      rename_i hc
      exact .dot c hc
  | alt r s ihr ihs =>
    cases h with
    | altL h => exact .altL (ihr h)
    | altR h => exact .altR (ihs h)
  | seq r s ihr ihs =>
    simp only [Regex.deriv] at h
    split at h
    · rename_i hn
      cases h with
      | altL h =>
        cases h with
        | seq h₁ h₂ => exact .seq (ihr h₁) h₂
      | altR h =>
        exact .seq (Regex.matches_nil_of_nullable hn) (ihs h)
    · cases h with
      | seq h₁ h₂ => exact .seq (ihr h₁) h₂
  | star r ih =>
    cases h with
    | seq h₁ h₂ => exact .starCons (ih h₁) h₂

theorem Regex.deriv_complete {r : Regex} {s : List Char}
    (h : r.Matches s) : ∀ c cs, s = c :: cs → (r.deriv c).Matches cs := by
  induction h with
  | eps => intro c cs hc; simp at hc
  | lit a =>
    intro c cs hc
    injection hc with h₁ h₂
    subst h₁; subst h₂
    simp only [Regex.deriv, if_pos rfl]
    exact .eps
  | dot a ha =>
    intro c cs hc
    injection hc with h₁ h₂
    subst h₁; subst h₂
    simp only [Regex.deriv, if_neg ha]
    exact .eps
  | altL h ih =>
    intro c cs hc
    exact .altL (ih c cs hc)
  | altR h ih =>
    intro c cs hc
    exact .altR (ih c cs hc)
  | @seq r s xs ys h₁ h₂ ih₁ ih₂ =>
    intro c cs hc
    cases xs with
    | nil =>
      have hn : r.nullable = true := Regex.nullable_of_matches_nil h₁ rfl
      simp only [List.nil_append] at hc
      simp only [Regex.deriv, hn, if_pos]
      exact .altR (ih₂ c cs hc)
    | cons x xs' =>
      simp only [List.cons_append, List.cons.injEq] at hc
      obtain ⟨hx, hcs⟩ := hc
      have hd : ((r.deriv c).seq s).Matches (xs' ++ ys) :=
        .seq (ih₁ c xs' (by rw [hx])) h₂
      rw [← hcs]
      simp only [Regex.deriv]
      split
      · exact .altL hd
      · exact hd
  | starNil => intro c cs hc; simp at hc
  | @starCons r xs ys h₁ h₂ ih₁ ih₂ =>
    intro c cs hc
    cases xs with
    | nil =>
      simp only [List.nil_append] at hc
      exact ih₂ c cs hc
    | cons x xs' =>
      simp only [List.cons_append, List.cons.injEq] at hc
      obtain ⟨hx, hcs⟩ := hc
      rw [← hcs]
      exact .seq (ih₁ c xs' (by rw [hx])) h₂

theorem Regex.hasPrefixMatch_sound {r : Regex} {s : List Char}
    (h : r.hasPrefixMatch s = true) : ∃ p q, s = p ++ q ∧ r.Matches p := by
  induction s generalizing r with
  | nil =>
    exact ⟨[], [], rfl, Regex.matches_nil_of_nullable h⟩
  | cons c cs ih =>
    simp only [Regex.hasPrefixMatch, Bool.or_eq_true] at h
    rcases h with h | h
    · exact ⟨[], c :: cs, rfl, Regex.matches_nil_of_nullable h⟩
    · obtain ⟨p, q, hpq, hm⟩ := ih h
      exact ⟨c :: p, q, by simp [hpq], Regex.deriv_sound hm⟩

theorem Regex.hasPrefixMatch_of_matches {r : Regex} {p : List Char}
    (h : r.Matches p) (q : List Char) : r.hasPrefixMatch (p ++ q) = true := by
  induction p generalizing r with
  | nil =>
    have hn := Regex.nullable_of_matches_nil h rfl
    cases q with
    | nil => exact hn
    | cons c cs => simp [Regex.hasPrefixMatch, hn]
  | cons c p' ih =>
    have hd : (r.deriv c).Matches p' := Regex.deriv_complete h c p' rfl
    simp [Regex.hasPrefixMatch, ih hd]

/-! ### Matching helpers for the concrete error-stack pattern -/

theorem Regex.lits_matches (l : List Char) : (Regex.lits l).Matches l := by
  induction l with
  | nil => exact .eps
  | cons c cs ih => exact .seq (.lit c) ih

theorem Regex.star_dot_matches {s : List Char}
    (h : ∀ a ∈ s, a ≠ '\n') : (Regex.star .dot).Matches s := by
  induction s with
  | nil => exact .starNil
  | cons c cs ih =>
    exact .starCons (.dot c (h c (by simp))) (ih fun a ha => h a (by simp [ha]))

theorem Regex.plus_dot_matches {s : List Char}
    (hne : s ≠ []) (h : ∀ a ∈ s, a ≠ '\n') : (Regex.plus .dot).Matches s := by
  cases s with
  | nil => exact absurd rfl hne
  | cons c cs =>
    exact .seq (.dot c (h c (by simp)))
      (Regex.star_dot_matches fun a ha => h a (by simp [ha]))

theorem Regex.lits_matches_inv {l : List Char} :
    ∀ {s : List Char}, (Regex.lits l).Matches s → s = l := by
  induction l with
  | nil =>
    intro s h
    cases h
    rfl
  | cons c cs ih =>
    intro s h
    cases h with
    | seq h₁ h₂ =>
      cases h₁
      rw [ih h₂]
      rfl

/-! ### Splitting and counter lemmas -/

theorem splitFirstSemi_some :
    ∀ {s a b : Str}, splitFirstSemi s = some (a, b) → s = a ++ ';' :: b ∧ ';' ∉ a := by
  intro s
  induction s with
  | nil => intro a b h; simp [splitFirstSemi] at h
  | cons c cs ih =>
    intro a b h
    simp only [splitFirstSemi] at h
    split at h
    · rename_i hc
      simp only [Option.some.injEq, Prod.mk.injEq] at h
      obtain ⟨ha, hb⟩ := h
      subst hc
      rw [← ha, ← hb]
      exact ⟨rfl, by simp⟩
    · rename_i hc
      rcases hm : splitFirstSemi cs with _ | ⟨a', b'⟩
      · rw [hm] at h; simp at h
      · rw [hm] at h
        have h' : some (c :: a', b') = some (a, b) := h
        injection h' with h''
        injection h'' with ha hb
        obtain ⟨hcs, hna⟩ := ih hm
        subst ha; subst hb
        constructor
        · rw [hcs]; rfl
        · simp only [List.mem_cons, not_or]
          exact ⟨fun he => hc he.symm, hna⟩

theorem splitFirstSemi_of_mem :
    ∀ {s : Str}, ';' ∈ s → ∃ a b, splitFirstSemi s = some (a, b) := by
  intro s
  induction s with
  | nil => intro h; simp at h
  | cons c cs ih =>
    intro h
    by_cases hc : c = ';'
    · exact ⟨[], cs, by simp [splitFirstSemi, hc]⟩
    · have hm : ';' ∈ cs := by
        rcases List.mem_cons.mp h with h | h
        · exact absurd h.symm hc
        · exact h
      obtain ⟨a, b, hab⟩ := ih hm
      exact ⟨c :: a, b, by simp [splitFirstSemi, hc, hab]⟩

theorem append_semi_inj :
    ∀ {a₁ : Str} {a₂ t₁ t₂ : Str}, ';' ∉ a₁ → ';' ∉ a₂ →
      a₁ ++ ';' :: t₁ = a₂ ++ ';' :: t₂ → a₁ = a₂ ∧ t₁ = t₂ := by
  intro a₁
  induction a₁ with
  | nil =>
    intro a₂ t₁ t₂ h₁ h₂ h
    cases a₂ with
    | nil =>
      simp only [List.nil_append, List.cons.injEq] at h
      exact ⟨rfl, h.2⟩
    | cons b bs =>
      simp only [List.nil_append, List.cons_append, List.cons.injEq] at h
      exact absurd (by simp [← h.1] : ';' ∈ b :: bs) h₂
  | cons a as ih =>
    intro a₂ t₁ t₂ h₁ h₂ h
    cases a₂ with
    | nil =>
      simp only [List.cons_append, List.nil_append, List.cons.injEq] at h
      exact absurd (by simp [h.1] : ';' ∈ a :: as) h₁
    | cons b bs =>
      simp only [List.cons_append, List.cons.injEq] at h
      have h₁' : ';' ∉ as := fun hm => h₁ (by simp [hm])
      have h₂' : ';' ∉ bs := fun hm => h₂ (by simp [hm])
      obtain ⟨he, ht⟩ := ih h₁' h₂' h.2
      exact ⟨by rw [h.1, he], ht⟩

/-- The key transform performed by each loop iteration of
`attach_error_to_stacks`: insert the error frame after the comm segment. -/
def annotateKey (error_frame k : Str) : Str :=
  match splitFirstSemi k with
  | some (comm, stack) => comm ++ [';'] ++ error_frame ++ [';'] ++ stack
  | none => k

theorem annotateKey_inj (e : Str) {k₁ k₂ : Str} (h₁ : ';' ∈ k₁) (h₂ : ';' ∈ k₂)
    (he : annotateKey e k₁ = annotateKey e k₂) : k₁ = k₂ := by
  obtain ⟨a₁, b₁, hs₁⟩ := splitFirstSemi_of_mem h₁
  obtain ⟨a₂, b₂, hs₂⟩ := splitFirstSemi_of_mem h₂
  obtain ⟨hk₁, hn₁⟩ := splitFirstSemi_some hs₁
  obtain ⟨hk₂, hn₂⟩ := splitFirstSemi_some hs₂
  rw [annotateKey, hs₁, annotateKey, hs₂] at he
  simp only [List.append_assoc, List.cons_append, List.nil_append] at he
  obtain ⟨ha, hb⟩ := append_semi_inj hn₁ hn₂ he
  have hb' : b₁ = b₂ := by
    have h := List.append_cancel_left hb
    simpa using h
  rw [hk₁, hk₂, ha, hb']

theorem counterSet_of_not_mem {d : StackToSampleCount} {k : Str} (v : Nat)
    (h : k ∉ d.map Prod.fst) : counterSet d k v = d ++ [(k, v)] := by
  induction d with
  | nil => rfl
  | cons p ps ih =>
    simp only [List.map_cons, List.mem_cons, not_or] at h
    simp only [counterSet]
    rw [if_neg (fun he => h.1 he.symm), ih h.2]
    rfl

theorem attachStep_eq {e : Str} {p : Str × Nat} (d : StackToSampleCount)
    (h : ';' ∈ p.1) :
    ProfilingErrorStack.attachStep e d p =
      some (counterSet d (annotateKey e p.1) p.2) := by
  obtain ⟨a, b, hs⟩ := splitFirstSemi_of_mem h
  simp [ProfilingErrorStack.attachStep, annotateKey, hs]

theorem attach_fold_some (e : Str) :
    ∀ (src : List (Str × Nat)) (d : StackToSampleCount),
      (∀ p ∈ src, ';' ∈ p.1) →
      src.foldlM (ProfilingErrorStack.attachStep e) d =
        some (src.foldl (fun dest p => counterSet dest (annotateKey e p.1) p.2) d) := by
  intro src
  induction src with
  | nil => intro d _; rfl
  | cons p ps ih =>
    intro d h
    rw [List.foldlM_cons, attachStep_eq d (h p (by simp)), List.foldl_cons]
    show List.foldlM (ProfilingErrorStack.attachStep e)
      (counterSet d (annotateKey e p.1) p.2) ps = _
    exact ih _ fun q hq => h q (by simp [hq])

theorem foldl_counterSet_fresh (f : Str × Nat → Str) :
    ∀ (src : List (Str × Nat)) (d : StackToSampleCount),
      (∀ p ∈ src, f p ∉ d.map Prod.fst) →
      (src.map f).Nodup →
      src.foldl (fun dest p => counterSet dest (f p) p.2) d =
        d ++ src.map (fun p => (f p, p.2)) := by
  intro src
  induction src with
  | nil => intro d _ _; simp
  | cons p ps ih =>
    intro d hf hnd
    simp only [List.map_cons] at hnd
    rcases List.nodup_cons.mp hnd with ⟨hnp, hnd'⟩
    simp only [List.foldl_cons, List.map_cons]
    rw [counterSet_of_not_mem _ (hf p (by simp))]
    have hfresh : ∀ q ∈ ps, f q ∉ (d ++ [(f p, p.2)]).map Prod.fst := by
      intro q hq
      simp only [List.map_append, List.mem_append, not_or, List.map_cons,
        List.map_nil, List.mem_singleton]
      refine ⟨hf q (by simp [hq]), fun hqp => ?_⟩
      exact hnp (hqp ▸ List.mem_map_of_mem f hq)
    rw [ih _ hfresh hnd']
    simp

/-! ### The error-stack pattern forces a semicolon in the key -/

theorem pattern_match_semi {k : Str}
    (h : ProfilingErrorStack.PROFILING_ERROR_STACK_PATTERN.hasPrefixMatch k = true) :
    ';' ∈ k := by
  obtain ⟨p, q, hk, hm⟩ := Regex.hasPrefixMatch_sound h
  simp only [ProfilingErrorStack.PROFILING_ERROR_STACK_PATTERN] at hm
  cases hm with
  | seq h₁ h₂ =>
    cases h₂ with
    | seq h₃ h₄ =>
      have hl := Regex.lits_matches_inv h₃
      subst hk
      subst hl
      simp only [List.mem_append]
      exact Or.inl (Or.inr (Or.inl (by decide)))

theorem is_error_stack_elim {stack : StackToSampleCount}
    (h : ProfilingErrorStack.is_error_stack stack = true) :
    ∃ k n, stack = [(k, n)] ∧ ';' ∈ k := by
  rcases stack with _ | ⟨⟨k, n⟩, rest⟩
  · simp [ProfilingErrorStack.is_error_stack] at h
  · rcases rest with _ | _
    · exact ⟨k, n, rfl, pattern_match_semi h⟩
    · simp [ProfilingErrorStack.is_error_stack] at h

/-! ### Claims about the error-stack builder and annotator -/

/-- C1: for source stacks `{"python;main;foo": 5, "python;main;bar": 3}` and
the error stack constructed from `what="cpu"`, `reason="permission denied"`,
`comm="python"`, `attach_error_to_stacks` returns exactly
`{"python;[Profiling cpu: permission denied];main;foo": 5,
"python;[Profiling cpu: permission denied];main;bar": 3}`. -/
theorem attach_error_to_stacks_example :
    ProfilingErrorStack.construct ("cpu").data ("permission denied").data
        ("python").data =
      some [(("python;[Profiling cpu: permission denied]").data, 1)] ∧
    ProfilingErrorStack.attach_error_to_stacks
        [(("python;main;foo").data, 5), (("python;main;bar").data, 3)]
        [(("python;[Profiling cpu: permission denied]").data, 1)] =
      some [(("python;[Profiling cpu: permission denied];main;foo").data, 5),
            (("python;[Profiling cpu: permission denied];main;bar").data, 3)] := by
  constructor
  · decide
  · decide

/-- C2: for every `source_stacks` whose keys all contain `;` (and are unique,
the dict invariant) and every error stack, `attach_error_to_stacks` succeeds
and returns a container with exactly as many entries as `source_stacks`, each
count carried over unchanged, and the total count preserved. -/
theorem attach_error_to_stacks_preserves_counts
    (src err : StackToSampleCount)
    (hsrc : ∀ p ∈ src, ';' ∈ p.1)
    (hnd : (src.map Prod.fst).Nodup)
    (herr : ProfilingErrorStack.is_error_stack err = true) :
    ∃ dest, ProfilingErrorStack.attach_error_to_stacks src err = some dest ∧
      dest.length = src.length ∧
      dest.map Prod.snd = src.map Prod.snd ∧
      (dest.map Prod.snd).sum = (src.map Prod.snd).sum := by
  obtain ⟨k, n, rfl, hk⟩ := is_error_stack_elim herr
  obtain ⟨c, e, hsplit⟩ := splitFirstSemi_of_mem hk
  have hnd' : (src.map fun p => annotateKey e p.1).Nodup := by
    have hmm : (src.map fun p => annotateKey e p.1) =
        (src.map Prod.fst).map (annotateKey e) := by
      simp [List.map_map]
    rw [hmm]
    refine List.Nodup.map_on ?_ hnd
    intro x hx y hy hxy
    obtain ⟨px, hpx, hpx'⟩ := List.mem_map.mp hx
    obtain ⟨py, hpy, hpy'⟩ := List.mem_map.mp hy
    exact annotateKey_inj e (hpx' ▸ hsrc px hpx) (hpy' ▸ hsrc py hpy) hxy
  have hsnd : (src.map fun p => (annotateKey e p.1, p.2)).map Prod.snd =
      src.map Prod.snd := by
    simp [List.map_map]
  refine ⟨src.map fun p => (annotateKey e p.1, p.2), ?_, by simp, hsnd,
    by rw [hsnd]⟩
  have heq : ProfilingErrorStack.attach_error_to_stacks src [(k, n)] =
      (splitFirstSemi k).bind fun x =>
        src.foldlM (ProfilingErrorStack.attachStep x.2) [] := rfl
  rw [heq, hsplit]
  show src.foldlM (ProfilingErrorStack.attachStep e) [] = _
  rw [attach_fold_some e src [] hsrc,
    foldl_counterSet_fresh _ src [] (by simp) hnd']
  simp

/-- C2 witness at a concrete input. -/
theorem attach_error_to_stacks_preserves_counts_witness :
    ∃ dest, ProfilingErrorStack.attach_error_to_stacks
        [(("python;main;foo").data, 5), (("python;main;bar").data, 3)]
        [(("python;[Profiling cpu: permission denied]").data, 1)] = some dest ∧
      dest.length = 2 ∧
      dest.map Prod.snd = [5, 3] ∧
      (dest.map Prod.snd).sum = 8 :=
  attach_error_to_stacks_preserves_counts
    [(("python;main;foo").data, 5), (("python;main;bar").data, 3)]
    [(("python;[Profiling cpu: permission denied]").data, 1)]
    (by decide) (by decide) (by decide)

/-- C4: on well-formed input — a non-empty `error_stack` whose first key
contains `;` and a `source_stacks` whose every key contains `;` —
`attach_error_to_stacks` completes without raising. -/
theorem attach_error_to_stacks_total
    (src rest : StackToSampleCount) (k : Str) (n : Nat)
    (hk : ';' ∈ k) (hsrc : ∀ p ∈ src, ';' ∈ p.1) :
    (ProfilingErrorStack.attach_error_to_stacks src ((k, n) :: rest)).isSome =
      true := by
  obtain ⟨c, e, hsplit⟩ := splitFirstSemi_of_mem hk
  have heq : ProfilingErrorStack.attach_error_to_stacks src ((k, n) :: rest) =
      (splitFirstSemi k).bind fun x =>
        src.foldlM (ProfilingErrorStack.attachStep x.2) [] := rfl
  rw [heq, hsplit]
  show (src.foldlM (ProfilingErrorStack.attachStep e) []).isSome = true
  rw [attach_fold_some e src [] hsrc]
  rfl

/-- C4 witness at a concrete input. -/
theorem attach_error_to_stacks_total_witness :
    (ProfilingErrorStack.attach_error_to_stacks [(("a;b").data, 1)]
      [(("x;y").data, 1)]).isSome = true :=
  attach_error_to_stacks_total [(("a;b").data, 1)] [] ("x;y").data 1
    (by decide) (by decide)

/-- C3 (amended): for non-empty `what`, `reason`, `comm` containing no newline
character, construction succeeds, the result satisfies `is_error_stack`, and
the container is a single entry with count 1. -/
theorem construct_error_stack_ok
    (what reason comm : Str)
    (hw : what ≠ []) (hr : reason ≠ []) (hc : comm ≠ [])
    (hwn : '\n' ∉ what) (hrn : '\n' ∉ reason) (hcn : '\n' ∉ comm) :
    ProfilingErrorStack.construct what reason comm =
      some [(ProfilingErrorStack.errorKey what reason comm, 1)] ∧
    ProfilingErrorStack.is_error_stack
      [(ProfilingErrorStack.errorKey what reason comm, 1)] = true := by
  have hkey : ProfilingErrorStack.errorKey what reason comm =
      comm ++ ((";[Profiling ").data ++
        (what ++ ((": ").data ++ (reason ++ [']'])))) := by
    simp [ProfilingErrorStack.errorKey]
  have hm : ProfilingErrorStack.PROFILING_ERROR_STACK_PATTERN.Matches
      (comm ++ ((";[Profiling ").data ++
        (what ++ ((": ").data ++ (reason ++ [']']))))) :=
    .seq (Regex.star_dot_matches fun a ha he => hcn (he ▸ ha))
      (.seq (Regex.lits_matches _)
        (.seq (Regex.plus_dot_matches hw fun a ha he => hwn (he ▸ ha))
          (.seq (Regex.lits_matches _)
            (.seq (Regex.plus_dot_matches hr fun a ha he => hrn (he ▸ ha))
              (.lit ']')))))
  have hpm : ProfilingErrorStack.PROFILING_ERROR_STACK_PATTERN.hasPrefixMatch
      (ProfilingErrorStack.errorKey what reason comm) = true := by
    have h := Regex.hasPrefixMatch_of_matches hm []
    rw [List.append_nil] at h
    rw [hkey]
    exact h
  have hies : ProfilingErrorStack.is_error_stack
      [(ProfilingErrorStack.errorKey what reason comm, 1)] = true := hpm
  exact ⟨by simp [ProfilingErrorStack.construct, hies], hies⟩

/-- C3 witness at a concrete input. -/
theorem construct_error_stack_ok_witness :
    ProfilingErrorStack.construct ("cpu").data ("permission denied").data
        ("python").data =
      some [(ProfilingErrorStack.errorKey ("cpu").data
        ("permission denied").data ("python").data, 1)] ∧
    ProfilingErrorStack.is_error_stack
      [(ProfilingErrorStack.errorKey ("cpu").data ("permission denied").data
        ("python").data, 1)] = true :=
  construct_error_stack_ok ("cpu").data ("permission denied").data
    ("python").data (by decide) (by decide) (by decide) (by decide) (by decide)
    (by decide)

/-- C3 counterexample: `what = "a\nb"`, `reason = "r"`, `comm = "c"` are all
non-empty, yet the constructor's `assert is_error_stack` fails (the regex `.`
does not match a newline), so construction raises instead of succeeding. -/
theorem construct_error_stack_newline_cex :
    ("a\nb").data ≠ [] ∧ ("r").data ≠ [] ∧ ("c").data ≠ [] ∧
    ProfilingErrorStack.construct ("a\nb").data ("r").data ("c").data =
      none := by
  refine ⟨by decide, by decide, by decide, by decide⟩

/-! ### Heap model: `attach_error_to_stacks` does not mutate its arguments

Python passes the two counters by reference.  To state the frame condition we
model a heap of counter objects; reads of `source_stacks` / `error_stack` are
heap reads, `dest_stacks = StackToSampleCount()` is a fresh allocation, and
each `dest_stacks[annotated] = count` is a heap write to that allocation. -/

/-- A heap of counter objects; a reference is an index into the heap. -/
structure PyHeap where
  counters : List StackToSampleCount

/-- Dereference a counter. -/
def PyHeap.read (h : PyHeap) (r : Nat) : StackToSampleCount :=
  h.counters.getD r []

/-- Overwrite the counter a reference points to. -/
def PyHeap.write (h : PyHeap) (r : Nat) (c : StackToSampleCount) : PyHeap :=
  ⟨h.counters.set r c⟩

/-- Allocate a new counter object, returning its (fresh) reference. -/
def PyHeap.alloc (h : PyHeap) (c : StackToSampleCount) : PyHeap × Nat :=
  (⟨h.counters ++ [c]⟩, h.counters.length)

namespace ProfilingErrorStack

/-- Loop body of `attach_error_to_stacks` on the heap: split the frame and
assign `dest_stacks[annotated] = count`, a write to the `dest` reference. -/
def attachHeapStep (error_frame : Str) (dest : Nat) (h : PyHeap)
    (p : Str × Nat) : Option PyHeap := do
  let (comm, stack) ← splitFirstSemi p.1
  let annotated := comm ++ [';'] ++ error_frame ++ [';'] ++ stack
  pure (h.write dest (counterSet (h.read dest) annotated p.2))

/-- `attach_error_to_stacks` with its containers on an explicit heap:
the same statements in the same order, each `Option` match being the
corresponding raising operation. -/
def attachHeap (h : PyHeap) (source_stacks error_stack : Nat) :
    Option (PyHeap × Nat) :=
  match h.read error_stack with
  | [] => none
  | (k, _) :: _ =>
    match splitFirstSemi k with
    | none => none
    | some (_, error_frame) =>
      let hd := h.alloc []
      match (hd.1.read source_stacks).foldlM
          (attachHeapStep error_frame hd.2) hd.1 with
      | none => none
      | some h₂ => some (h₂, hd.2)

end ProfilingErrorStack

theorem PyHeap.read_write_ne (h : PyHeap) {r r' : Nat} (c : StackToSampleCount)
    (hne : r ≠ r') : (h.write r c).read r' = h.read r' := by
  simp only [PyHeap.read, PyHeap.write, List.getD_eq_getElem?_getD]
  rw [List.getElem?_set_ne hne]

theorem PyHeap.read_alloc_lt (h : PyHeap) (c : StackToSampleCount) {r : Nat}
    (hr : r < h.counters.length) : (h.alloc c).1.read r = h.read r := by
  simp only [PyHeap.read, PyHeap.alloc, List.getD_eq_getElem?_getD]
  rw [List.getElem?_append_left hr]

theorem attachHeapStep_frame {e : Str} {dest : Nat} {h h' : PyHeap}
    {p : Str × Nat}
    (hs : ProfilingErrorStack.attachHeapStep e dest h p = some h') :
    ∀ r, r ≠ dest → h'.read r = h.read r := by
  intro r hr
  rcases hsp : splitFirstSemi p.1 with _ | ⟨a, b⟩
  · rw [ProfilingErrorStack.attachHeapStep] at hs
    rw [hsp] at hs
    exact Option.noConfusion hs
  · rw [ProfilingErrorStack.attachHeapStep] at hs
    rw [hsp] at hs
    have hs₂ : some (h.write dest
        (counterSet (h.read dest) (a ++ [';'] ++ e ++ [';'] ++ b) p.2)) =
        some h' := hs
    injection hs₂ with hs₃
    rw [← hs₃]
    exact h.read_write_ne _ fun he => hr he.symm

theorem attachHeap_fold_frame (e : Str) (dest : Nat) :
    ∀ (items : List (Str × Nat)) (h h' : PyHeap),
      items.foldlM (ProfilingErrorStack.attachHeapStep e dest) h = some h' →
      ∀ r, r ≠ dest → h'.read r = h.read r := by
  intro items
  induction items with
  | nil =>
    intro h h' hf r hr
    simp only [List.foldlM_nil, Option.pure_def, Option.some.injEq] at hf
    rw [hf]
  | cons p ps ih =>
    intro h h' hf r hr
    rw [List.foldlM_cons] at hf
    rcases hsp : ProfilingErrorStack.attachHeapStep e dest h p with _ | h₁
    · rw [hsp] at hf
      exact Option.noConfusion hf
    · rw [hsp] at hf
      have hf' : ps.foldlM (ProfilingErrorStack.attachHeapStep e dest) h₁ =
          some h' := hf
      rw [ih h₁ h' hf' r hr]
      exact attachHeapStep_frame hsp r hr

/-- C9: `attach_error_to_stacks` allocates and returns a fresh container and
never mutates its arguments: whenever it succeeds, both argument references
still hold exactly the same keys and counts, and the returned reference is a
new one, distinct from both arguments. -/
theorem attach_error_to_stacks_no_mutation
    (h : PyHeap) (src err : Nat) (h' : PyHeap) (d : Nat)
    (hsrc : src < h.counters.length) (herr : err < h.counters.length)
    (heq : ProfilingErrorStack.attachHeap h src err = some (h', d)) :
    h'.read src = h.read src ∧ h'.read err = h.read err ∧
      d ≠ src ∧ d ≠ err := by
  unfold ProfilingErrorStack.attachHeap at heq
  split at heq
  · exact Option.noConfusion heq
  · rename_i k n' rest hre
    split at heq
    · exact Option.noConfusion heq
    · rename_i x a e hsp
      have heq₂ : (match ((h.alloc []).1.read src).foldlM
            (ProfilingErrorStack.attachHeapStep e (h.alloc []).2)
            (h.alloc []).1 with
          | none => none
          | some h₂ => some (h₂, (h.alloc []).2)) = some (h', d) := heq
      split at heq₂
      · exact Option.noConfusion heq₂
      · rename_i h₂ hf
        injection heq₂ with heq'
        injection heq' with hh hd
        have hdlen : d = h.counters.length := by
          rw [← hd]; rfl
        have hdsrc : d ≠ src := fun he => absurd hsrc (by rw [← he, hdlen]; simp)
        have hderr : d ≠ err := fun he => absurd herr (by rw [← he, hdlen]; simp)
        have hs' : h'.read src = (h.alloc []).1.read src := by
          rw [← hh]
          refine attachHeap_fold_frame e (h.alloc []).2 _ _ _ hf src ?_
          rw [hd]
          exact fun hx => hdsrc hx.symm
        have he' : h'.read err = (h.alloc []).1.read err := by
          rw [← hh]
          refine attachHeap_fold_frame e (h.alloc []).2 _ _ _ hf err ?_
          rw [hd]
          exact fun hx => hderr hx.symm
        refine ⟨?_, ?_, hdsrc, hderr⟩
        · rw [hs', h.read_alloc_lt _ hsrc]
        · rw [he', h.read_alloc_lt _ herr]

/-- C9 witness at a concrete heap: a successful call leaves both argument
containers exactly as they were and returns a fresh reference. -/
theorem attach_error_to_stacks_no_mutation_witness :
    (PyHeap.mk [[(("a;b").data, 1)], [(("x;y").data, 1)],
        [(("a;y;b").data, 1)]]).read 0 =
      (PyHeap.mk [[(("a;b").data, 1)], [(("x;y").data, 1)]]).read 0 ∧
    (PyHeap.mk [[(("a;b").data, 1)], [(("x;y").data, 1)],
        [(("a;y;b").data, 1)]]).read 1 =
      (PyHeap.mk [[(("a;b").data, 1)], [(("x;y").data, 1)]]).read 1 ∧
    (2 : Nat) ≠ 0 ∧ (2 : Nat) ≠ 1 :=
  attach_error_to_stacks_no_mutation
    (PyHeap.mk [[(("a;b").data, 1)], [(("x;y").data, 1)]]) 0 1
    (PyHeap.mk [[(("a;b").data, 1)], [(("x;y").data, 1)],
      [(("a;y;b").data, 1)]]) 2
    (by decide) (by decide) rfl

/-! ### Configuration value validators -/

/-- Python exceptions raised by the validators: `ValueError` (escaping from
`int()`) and `configargparse.ArgumentTypeError`, each with its message. -/
inductive PyErr where
  | valueError : Str → PyErr
  | argumentTypeError : Str → PyErr
deriving DecidableEq

/-- The whitespace characters `int()` ignores around a number. -/
def isPySpace (c : Char) : Bool :=
  c = ' ' || c = '\t' || c = '\n' || c = '\r' || c = '\x0b' || c = '\x0c'

/-- Remaining digits of a decimal literal, with Python's underscore rule:
single underscores are allowed only between two digits. -/
def parseDigitsAux (acc : Nat) : Str → Option Nat
  | [] => some acc
  | c :: cs =>
    if c.isDigit then parseDigitsAux (10 * acc + (c.toNat - 48)) cs
    else if c = '_' then
      match cs with
      | [] => none
      | d :: cs₂ =>
        if d.isDigit then parseDigitsAux (10 * acc + (d.toNat - 48)) cs₂
        else none
    else none

/-- A non-empty decimal digit sequence (underscores between digits). -/
def parseDigits : Str → Option Nat
  | [] => none
  | c :: cs => if c.isDigit then parseDigitsAux (c.toNat - 48) cs else none

/-- Python `int(value_str)` on ASCII decimal input: optional surrounding
whitespace, an optional sign, then digits; `none` embeds the `ValueError`. -/
def pyInt (s : Str) : Option Int :=
  let t := (((s.dropWhile isPySpace).reverse).dropWhile isPySpace).reverse
  match t with
  | [] => none
  | c :: cs =>
    if c = '+' then (parseDigits cs).map Int.ofNat
    else if c = '-' then (parseDigits cs).map fun n => -(n : Int)
    else (parseDigits t).map Int.ofNat

/-- Python `repr` of an int: plain decimal with a leading `-` if negative. -/
def pyReprInt (i : Int) : Str :=
  match i with
  | .ofNat n => (Nat.repr n).data
  | .negSucc n => '-' :: (Nat.repr (n + 1)).data

/-- One character of Python string `repr` (printable characters; the quote,
the backslash and whitespace escapes are the cases these messages can hit). -/
def pyReprChar (q c : Char) : Str :=
  if c = '\\' then ['\\', '\\']
  else if c = q then ['\\', q]
  else if c = '\n' then ['\\', 'n']
  else if c = '\r' then ['\\', 'r']
  else if c = '\t' then ['\\', 't']
  else [c]

/-- Python `repr` of a string: single-quoted, or double-quoted when the
string contains `'` but no `"`. -/
def pyReprStr (s : Str) : Str :=
  let q := if '\'' ∈ s ∧ '"' ∉ s then '"' else '\''
  q :: s.foldr (fun c acc => pyReprChar q c ++ acc) [q]

/-- Python `repr` of a list of strings: `['a', 'b']`. -/
def pyReprStrList (l : List Str) : Str :=
  '[' :: List.intercalate (", ").data (l.map pyReprStr) ++ [']']

/-- Python `value_str.split(",")`: always at least one token; an empty input
yields the single token `""`. -/
def splitComma : Str → List Str
  | [] => [[]]
  | c :: cs =>
    if c = ',' then [] :: splitComma cs
    else
      match splitComma cs with
      | [] => [[c]]
      | t :: ts => (c :: t) :: ts

/-- The `ValueError` message of `int(value_str)` on unparsable input. -/
def intValueErrMsg (value_str : Str) : Str :=
  ("invalid literal for int() with base 10: ").data ++ pyReprStr value_str

/-- `positive_integer(value_str)`: `int()` then reject values ≤ 0. -/
def positive_integer (value_str : Str) : Except PyErr Int :=
  match pyInt value_str with
  | none => .error (.valueError (intValueErrMsg value_str))
  | some value =>
    if value ≤ 0 then
      .error (.argumentTypeError
        (("invalid positive integer value: ").data ++ pyReprInt value))
    else .ok value

/-- `nonnegative_integer(value_str)`: `int()` then reject values < 0. -/
def nonnegative_integer (value_str : Str) : Except PyErr Int :=
  match pyInt value_str with
  | none => .error (.valueError (intValueErrMsg value_str))
  | some value =>
    if value < 0 then
      .error (.argumentTypeError
        (("invalid non-negative integer value: ").data ++ pyReprInt value))
    else .ok value

/-- The fixed message `integers_list` raises with on any parse failure. -/
def integersListErrMsg : Str :=
  ("Integer list should be a single integer, or comma separated list of integers f.e. 13,452,2388").data

/-- `integers_list(value_str)`: `[int(v) for v in value_str.split(",")]`,
catching the `ValueError` and re-raising `ArgumentTypeError` with a fixed
message. -/
def integers_list (value_str : Str) : Except PyErr (List Int) :=
  match (splitComma value_str).mapM pyInt with
  | none => .error (.argumentTypeError integersListErrMsg)
  | some values => .ok values

/-- The message of `integer_range`'s check,
`f"invalid integer value {value!r} (out of range {min_range!r}-{max_range!r})"`. -/
def integerRangeErrMsg (value min_range max_range : Int) : Str :=
  ("invalid integer value ").data ++ pyReprInt value ++
    (" (out of range ").data ++ pyReprInt min_range ++ ['-'] ++
    pyReprInt max_range ++ [')']

/-- `integer_range(min_range, max_range)` applied to `value_str`: `int()`
then reject values outside `[min_range, max_range)`. -/
def integer_range (min_range max_range : Int) (value_str : Str) :
    Except PyErr Int :=
  match pyInt value_str with
  | none => .error (.valueError (intValueErrMsg value_str))
  | some value =>
    if value < min_range ∨ value ≥ max_range then
      .error (.argumentTypeError (integerRangeErrMsg value min_range max_range))
    else .ok value

/-- The message of `comma_separated_enum_list`'s check,
`f"invalid value {v!r} (allowed values: {options!r})"`. -/
def commaEnumErrMsg (v : Str) (options : List Str) : Str :=
  ("invalid value ").data ++ pyReprStr v ++ (" (allowed values: ").data ++
    pyReprStrList options ++ [')']

/-- `comma_separated_enum_list(options, value)`: split on `,` and raise at
the first token not in `options`, otherwise return the split list. -/
def comma_separated_enum_list (options : List Str) (value : Str) :
    Except PyErr (List Str) :=
  let values := splitComma value
  match values.find? (fun v => !(options.contains v)) with
  | some v => .error (.argumentTypeError (commaEnumErrMsg v options))
  | none => .ok values

/-! ### Claims about the validators -/

theorem positive_integer_of_pyInt {s : Str} {v : Int} (h : pyInt s = some v) :
    positive_integer s = if v ≤ 0 then
      .error (.argumentTypeError
        (("invalid positive integer value: ").data ++ pyReprInt v))
    else .ok v := by
  unfold positive_integer
  rw [h]

theorem integer_range_of_pyInt {mn mx : Int} {s : Str} {v : Int}
    (h : pyInt s = some v) :
    integer_range mn mx s = if v < mn ∨ v ≥ mx then
      .error (.argumentTypeError (integerRangeErrMsg v mn mx))
    else .ok v := by
  unfold integer_range
  rw [h]

theorem find?_first {α : Type} (p : α → Bool) :
    ∀ (pre : List α) (v : α) (post : List α),
      (∀ u ∈ pre, p u = false) → p v = true →
      (pre ++ v :: post).find? p = some v := by
  intro pre
  induction pre with
  | nil =>
    intro v post _ hv
    rw [List.nil_append]
    exact List.find?_cons_of_pos _ hv
  | cons a as ih =>
    intro v post h hv
    rw [List.cons_append, List.find?_cons_of_neg _ (by simp [h a (by simp)])]
    exact ih v post (fun u hu => h u (by simp [hu])) hv

/-- C8: `positive_integer` parses the text as an integer and fails with an
`ArgumentTypeError` exactly when the parsed value is ≤ 0, returning the
parsed value otherwise; `"0"` and `"-3"` fail, `"1"` returns 1. -/
theorem positive_integer_spec :
    (∀ (s : Str) (v : Int), pyInt s = some v →
      ((v ≤ 0 → positive_integer s = .error (.argumentTypeError
          (("invalid positive integer value: ").data ++ pyReprInt v))) ∧
       (0 < v → positive_integer s = .ok v))) ∧
    positive_integer ("0").data = .error (.argumentTypeError
      (("invalid positive integer value: 0").data)) ∧
    positive_integer ("-3").data = .error (.argumentTypeError
      (("invalid positive integer value: -3").data)) ∧
    positive_integer ("1").data = .ok 1 := by
  refine ⟨?_, rfl, rfl, rfl⟩
  intro s v h
  constructor
  · intro hv
    rw [positive_integer_of_pyInt h, if_pos hv]
  · intro hv
    rw [positive_integer_of_pyInt h, if_neg (by omega)]

/-- C8 witness at a concrete parsed input. -/
theorem positive_integer_spec_witness :
    positive_integer ("7").data = .ok 7 :=
  (positive_integer_spec.1 ("7").data 7 rfl).2 (by decide)

/-- C6: the validator from `integer_range(min, max)` accepts exactly the
parsed integers in `[min, max)`: it fails with an `ArgumentTypeError` when
the parsed value is `< min` or `≥ max`, and returns the value otherwise;
`integer_range(0, 10)("10")` fails and `integer_range(0, 10)("9")` is 9. -/
theorem integer_range_spec :
    (∀ (mn mx : Int) (s : Str) (v : Int), pyInt s = some v →
      ((v < mn ∨ mx ≤ v → integer_range mn mx s =
          .error (.argumentTypeError (integerRangeErrMsg v mn mx))) ∧
       (mn ≤ v → v < mx → integer_range mn mx s = .ok v))) ∧
    integer_range 0 10 ("10").data = .error (.argumentTypeError
      (("invalid integer value 10 (out of range 0-10)").data)) ∧
    integer_range 0 10 ("9").data = .ok 9 := by
  refine ⟨?_, rfl, rfl⟩
  intro mn mx s v h
  constructor
  · intro hout
    rw [integer_range_of_pyInt h, if_pos (by omega)]
  · intro h₁ h₂
    rw [integer_range_of_pyInt h, if_neg (by omega)]

/-- C6 witness at a concrete parsed input. -/
theorem integer_range_spec_witness :
    integer_range 0 10 ("9").data = .ok 9 :=
  (integer_range_spec.1 0 10 ("9").data 9 rfl).2 (by decide) (by decide)

/-- C5 (amended): `integers_list` splits on `,` and parses every segment as
an integer, returning the list on success; if any segment is invalid it
fails with an `ArgumentTypeError` carrying a fixed explanatory message that
does not include the offending text. -/
theorem integers_list_spec :
    (∀ (s : Str) (vs : List Int), (splitComma s).mapM pyInt = some vs →
      integers_list s = .ok vs) ∧
    (∀ s : Str, (splitComma s).mapM pyInt = none →
      integers_list s = .error (.argumentTypeError integersListErrMsg)) ∧
    integers_list ("1,2,3").data = .ok [1, 2, 3] ∧
    integers_list ("1,2,x").data =
      .error (.argumentTypeError integersListErrMsg) := by
  refine ⟨?_, ?_, rfl, rfl⟩
  · intro s vs h
    unfold integers_list
    rw [h]
  · intro s h
    unfold integers_list
    rw [h]

/-- C5 witness at a concrete input. -/
theorem integers_list_spec_witness :
    integers_list ("13,452,2388").data = .ok [13, 452, 2388] :=
  integers_list_spec.1 ("13,452,2388").data [13, 452, 2388] rfl

/-- C5 counterexample: on `"1,2,x"` the error message is the fixed string,
which does not contain the offending raw text `"x"` (it has no `'x'` at
all), contradicting "whose message lists the offending raw text". -/
theorem integers_list_message_cex :
    integers_list ("1,2,x").data =
      .error (.argumentTypeError integersListErrMsg) ∧
    'x' ∉ integersListErrMsg := ⟨rfl, by decide⟩

/-- C7: `comma_separated_enum_list` splits on `,`, returns the split list
(preserving order and duplicates) when every token is allowed, and otherwise
fails with an `ArgumentTypeError` naming the first disallowed token;
`(["a","b"], "a,b,a")` returns `["a","b","a"]` and `(["a","b"], "a,c")`
fails naming `"c"`. -/
theorem comma_separated_enum_list_spec :
    (∀ (options : List Str) (value : Str),
      (∀ v ∈ splitComma value, v ∈ options) →
      comma_separated_enum_list options value = .ok (splitComma value)) ∧
    (∀ (options : List Str) (value : Str) (pre : List Str) (v : Str)
        (post : List Str),
      splitComma value = pre ++ v :: post →
      (∀ u ∈ pre, u ∈ options) → v ∉ options →
      comma_separated_enum_list options value =
        .error (.argumentTypeError (commaEnumErrMsg v options))) ∧
    comma_separated_enum_list [("a").data, ("b").data] ("a,b,a").data =
      .ok [("a").data, ("b").data, ("a").data] ∧
    comma_separated_enum_list [("a").data, ("b").data] ("a,c").data =
      .error (.argumentTypeError
        (("invalid value 'c' (allowed values: ['a', 'b'])").data)) := by
  refine ⟨?_, ?_, rfl, rfl⟩
  · intro options value hall
    have hnone : (splitComma value).find? (fun v => !(options.contains v)) =
        none := by
      refine List.find?_eq_none.mpr fun x hx hpx => ?_
      simp at hpx
      exact hpx (hall x hx)
    simp only [comma_separated_enum_list]
    rw [hnone]
  · intro options value pre v post hsplit hpre hv
    have hfind : (splitComma value).find? (fun u => !(options.contains u)) =
        some v := by
      rw [hsplit]
      refine find?_first _ pre v post (fun u hu => ?_) (by simpa using hv)
      simpa using hpre u hu
    simp only [comma_separated_enum_list]
    rw [hfind]

/-- C7 witness at a concrete input. -/
theorem comma_separated_enum_list_spec_witness :
    comma_separated_enum_list [("a").data, ("b").data] ("a,b,a").data =
      .ok (splitComma ("a,b,a").data) :=
  comma_separated_enum_list_spec.1 [("a").data, ("b").data] ("a,b,a").data
    (by decide)

/-- C10: `comma_separated_enum_list(options, "")` splits the empty string
into the single token `""`, and therefore fails with an `ArgumentTypeError`
naming `""` whenever `""` is not an allowed option — an empty input is never
accepted as an empty list. -/
theorem comma_separated_enum_list_empty :
    splitComma ([] : Str) = [[]] ∧
    ∀ options : List Str, ([] : Str) ∉ options →
      comma_separated_enum_list options [] =
        .error (.argumentTypeError (commaEnumErrMsg [] options)) := by
  refine ⟨rfl, ?_⟩
  intro options hne
  have hfind : (splitComma ([] : Str)).find?
      (fun u => !(options.contains u)) = some [] :=
    List.find?_cons_of_pos _ (by simpa using hne)
  simp only [comma_separated_enum_list]
  rw [hfind]

/-- C10 witness at a concrete input. -/
theorem comma_separated_enum_list_empty_witness :
    comma_separated_enum_list [("a").data] [] =
      .error (.argumentTypeError (commaEnumErrMsg [] [("a").data])) :=
  comma_separated_enum_list_empty.2 [("a").data] (by decide)

end GProfiler
